import Mathlib

/-!
Shallow embedding of the SmartPy contract `NFTMarketplace` (file
`src/project.py`) together with theorems checking the specification's
claims about it.

Modelling choices:
* addresses (`sp.address`) are modelled as `Nat`;
* mutez amounts (`sp.mutez`) are modelled as `Nat` (mutez are non-negative);
* the `big_map[sp.nat, token_type]` of tokens is modelled as a function
  `Nat → Option Token`;
* each entrypoint takes the call context (`sp.sender`, `sp.amount`)
  explicitly and returns either the failing assertion's message
  (`Except.error`) or the new storage together with the list of outgoing
  payments made by `sp.send`, in program order (`Except.ok`);
* `sp.split_tokens m quantity total` is `m * quantity / total` with
  truncating natural division, exactly as on chain.
-/

namespace NFTMarketplace

/-- The `token_type` record of the contract. -/
structure Token where
  metadata : String
  author : Nat
  owner : Nat
  price : Nat
  for_sale : Bool
deriving DecidableEq, Repr

/-- The contract storage `self.data`, as initialised by `__init__`. -/
structure Storage where
  tokens : Nat → Option Token
  next_id : Nat
  admin : Nat
  mint_price : Nat
  royalty_percent : Nat
  platform_fee_percent : Nat
  collected_fees : Nat
  paused : Bool

/-- Result of an entrypoint call: error message, or new storage plus the
list of `sp.send` payments `(destination, amount)` in program order. -/
abbrev Result := Except String (Storage × List (Nat × Nat))

/-- `sp.split_tokens(m, quantity, total)`: `floor (m * quantity / total)`. -/
def sp_split_tokens (m quantity total : Nat) : Nat :=
  m * quantity / total

/-- Entrypoint `mint(metadata)`. -/
def mint (s : Storage) (sender amount : Nat) (metadata : String) : Result :=
  if s.paused then .error "Contract is paused"
  else if amount = s.mint_price then
    .ok ({ s with
            tokens := fun k =>
              if k = s.next_id then
                some { metadata := metadata, author := sender, owner := sender,
                       price := 0, for_sale := false }
              else s.tokens k,
            next_id := s.next_id + 1,
            collected_fees := s.collected_fees + amount }, [])
  else .error "Invalid mint price"

/-- Entrypoint `list_for_sale(token_id, price)`. -/
def list_for_sale (s : Storage) (sender amount : Nat) (token_id price : Nat) : Result :=
  if s.paused then .error "Contract is paused"
  else match s.tokens token_id with
    | none => .error "Token does not exist"
    | some token =>
      if token.owner ≠ sender then .error "Not the owner"
      else if token.for_sale then .error "Already listed for sale"
      else if 0 < price then
        .ok ({ s with
                tokens := fun k =>
                  if k = token_id then
                    some { token with price := price, for_sale := true }
                  else s.tokens k }, [])
      else .error "Price must be greater than 0"

/-- Entrypoint `cancel_sale(token_id)`. -/
def cancel_sale (s : Storage) (sender amount : Nat) (token_id : Nat) : Result :=
  match s.tokens token_id with
  | none => .error "Token does not exist"
  | some token =>
    if token.owner ≠ sender then .error "Not the owner"
    else if token.for_sale then
      .ok ({ s with
              tokens := fun k =>
                if k = token_id then
                  some { token with for_sale := false, price := 0 }
                else s.tokens k }, [])
    else .error "Not listed for sale"

/-- Entrypoint `buy(token_id)`. -/
def buy (s : Storage) (sender amount : Nat) (token_id : Nat) : Result :=
  if s.paused then .error "Contract is paused"
  else match s.tokens token_id with
    | none => .error "Token does not exist"
    | some token =>
      if token.for_sale then
        if sender = token.owner then .error "Cannot buy your own token"
        else if amount = token.price then
          let royalty_amount := sp_split_tokens token.price s.royalty_percent 100
          let platform_fee := sp_split_tokens token.price s.platform_fee_percent 100
          let seller_amount := token.price - royalty_amount - platform_fee
          .ok ({ s with
                  collected_fees := s.collected_fees + platform_fee,
                  tokens := fun k =>
                    if k = token_id then
                      some { token with owner := sender, for_sale := false, price := 0 }
                    else s.tokens k },
               [(token.author, royalty_amount), (token.owner, seller_amount)])
        else .error "Invalid price"
      else .error "Token not for sale"

/-- Entrypoint `transfer(token_id, new_owner)`. -/
def transfer (s : Storage) (sender amount : Nat) (token_id new_owner : Nat) : Result :=
  match s.tokens token_id with
  | none => .error "Token does not exist"
  | some token =>
    if amount ≠ 0 then .error "No tez should be sent"
    else if token.owner ≠ sender then .error "Not the owner"
    else if new_owner = sender then .error "Cannot transfer to yourself"
    else if token.for_sale then .error "Cancel sale before transfer"
    else
      .ok ({ s with
              tokens := fun k =>
                if k = token_id then some { token with owner := new_owner }
                else s.tokens k }, [])

/-- Entrypoint `update_author_address(token_id, new_author)`. -/
def update_author_address (s : Storage) (sender amount : Nat)
    (token_id new_author : Nat) : Result :=
  match s.tokens token_id with
  | none => .error "Token does not exist"
  | some token =>
    if token.author ≠ sender then .error "Not the author"
    else if new_author = sender then .error "Same address"
    else
      .ok ({ s with
              tokens := fun k =>
                if k = token_id then some { token with author := new_author }
                else s.tokens k }, [])

/-- Entrypoint `withdraw_fees()`. -/
def withdraw_fees (s : Storage) (sender amount : Nat) : Result :=
  if sender ≠ s.admin then .error "Not admin"
  else if 0 < s.collected_fees then
    .ok ({ s with collected_fees := 0 }, [(s.admin, s.collected_fees)])
  else .error "No fees to withdraw"

/-- Entrypoint `set_pause(paused)`. -/
def set_pause (s : Storage) (sender amount : Nat) (paused : Bool) : Result :=
  if sender ≠ s.admin then .error "Not admin"
  else .ok ({ s with paused := paused }, [])

/-- Entrypoint `update_mint_price(new_price)`. -/
def update_mint_price (s : Storage) (sender amount : Nat) (new_price : Nat) : Result :=
  if sender ≠ s.admin then .error "Not admin"
  else .ok ({ s with mint_price := new_price }, [])

/-- Entrypoint `transfer_admin(new_admin)`. -/
def transfer_admin (s : Storage) (sender amount : Nat) (new_admin : Nat) : Result :=
  if sender ≠ s.admin then .error "Not admin"
  else if new_admin = s.admin then .error "Same admin"
  else .ok ({ s with admin := new_admin }, [])

/-- One call to any of the ten entrypoints, with its arguments. -/
inductive Call where
  | mint (metadata : String)
  | list_for_sale (token_id price : Nat)
  | cancel_sale (token_id : Nat)
  | buy (token_id : Nat)
  | transfer (token_id new_owner : Nat)
  | update_author_address (token_id new_author : Nat)
  | withdraw_fees
  | set_pause (paused : Bool)
  | update_mint_price (new_price : Nat)
  | transfer_admin (new_admin : Nat)

/-- Dispatch a call to the corresponding entrypoint. -/
def exec (c : Call) (sender amount : Nat) (s : Storage) : Result :=
  match c with
  | .mint metadata => mint s sender amount metadata
  | .list_for_sale token_id price => list_for_sale s sender amount token_id price
  | .cancel_sale token_id => cancel_sale s sender amount token_id
  | .buy token_id => buy s sender amount token_id
  | .transfer token_id new_owner => transfer s sender amount token_id new_owner
  | .update_author_address token_id new_author =>
      update_author_address s sender amount token_id new_author
  | .withdraw_fees => withdraw_fees s sender amount
  | .set_pause paused => set_pause s sender amount paused
  | .update_mint_price new_price => update_mint_price s sender amount new_price
  | .transfer_admin new_admin => transfer_admin s sender amount new_admin

/-- The state after a call: the new storage on success, the unchanged
storage when the call aborts (the host rolls back aborted calls). -/
def step (c : Call) (sender amount : Nat) (s : Storage) : Storage :=
  match exec c sender amount s with
  | .ok (s', _) => s'
  | .error _ => s

/-- Whether a call result is a success. -/
def opOk (r : Result) : Bool :=
  match r with
  | .ok _ => true
  | .error _ => false

/-- The storage built by `__init__` (its assertion
`royalty_percent + platform_fee_percent < 100` is carried by
`Reachable.init` below). -/
def initStorage (admin mint_price royalty_percent platform_fee_percent : Nat) : Storage :=
  { tokens := fun _ => none
    next_id := 0
    admin := admin
    mint_price := mint_price
    royalty_percent := royalty_percent
    platform_fee_percent := platform_fee_percent
    collected_fees := 0
    paused := false }

/-- States reachable from a valid construction by any sequence of calls. -/
inductive Reachable : Storage → Prop where
  | init (admin mint_price royalty_percent platform_fee_percent : Nat) :
      royalty_percent + platform_fee_percent < 100 →
      Reachable (initStorage admin mint_price royalty_percent platform_fee_percent)
  | step (s : Storage) (c : Call) (sender amount : Nat) :
      Reachable s → Reachable (step c sender amount s)

/-- The token keys are exactly `{0, …, next_id - 1}`. -/
def KeysInv (s : Storage) : Prop :=
  ∀ k, (s.tokens k).isSome ↔ k < s.next_id

/-- Per-token sale/price discipline: `for_sale` tokens have a positive
price, unlisted tokens have price `0`. -/
def TokenPriceOk (t : Token) : Prop :=
  (t.for_sale = true → 0 < t.price) ∧ (t.for_sale = false → t.price = 0)

/-- Every stored token satisfies `TokenPriceOk`. -/
def SaleInv (s : Storage) : Prop :=
  ∀ k t, s.tokens k = some t → TokenPriceOk t

/-! ### Concrete fixture states used to instantiate theorems -/

/-- A freshly minted token owned by address 1, not for sale. -/
def sampleToken : Token :=
  { metadata := "nft", author := 1, owner := 1, price := 0, for_sale := false }

/-- A token owned by address 1, listed at price 100. -/
def listedToken : Token :=
  { metadata := "art", author := 1, owner := 1, price := 100, for_sale := true }

/-- Unpaused marketplace holding the listed token. -/
def saleState : Storage :=
  { tokens := fun k => if k = 0 then some listedToken else none
    next_id := 1
    admin := 0
    mint_price := 1
    royalty_percent := 5
    platform_fee_percent := 2
    collected_fees := 3
    paused := false }

/-- Unpaused marketplace holding the unlisted sample token. -/
def unlistedState : Storage :=
  { tokens := fun k => if k = 0 then some sampleToken else none
    next_id := 1
    admin := 0
    mint_price := 1
    royalty_percent := 5
    platform_fee_percent := 2
    collected_fees := 3
    paused := false }

/-- Paused marketplace holding the unlisted sample token. -/
def pausedState : Storage :=
  { tokens := fun k => if k = 0 then some sampleToken else none
    next_id := 1
    admin := 0
    mint_price := 1
    royalty_percent := 5
    platform_fee_percent := 2
    collected_fees := 3
    paused := true }

/-- Paused marketplace holding the listed token. -/
def pausedSaleState : Storage :=
  { tokens := fun k => if k = 0 then some listedToken else none
    next_id := 1
    admin := 0
    mint_price := 1
    royalty_percent := 5
    platform_fee_percent := 2
    collected_fees := 3
    paused := true }

/-- The state reached by minting one token from a fresh marketplace. -/
def mintedState : Storage :=
  step (Call.mint "nft") 1 1 (initStorage 0 1 5 2)

/-- The storage produced by the successful `buy saleState 2 100 0`. -/
def buyResultState : Storage :=
  { saleState with
      collected_fees := saleState.collected_fees +
        sp_split_tokens listedToken.price saleState.platform_fee_percent 100,
      tokens := fun k =>
        if k = 0 then some { listedToken with owner := 2, for_sale := false, price := 0 }
        else saleState.tokens k }

/-- The payments produced by the successful `buy saleState 2 100 0`. -/
def buyResultEffs : List (Nat × Nat) :=
  [(listedToken.author, sp_split_tokens listedToken.price saleState.royalty_percent 100),
   (listedToken.owner, listedToken.price -
      sp_split_tokens listedToken.price saleState.royalty_percent 100 -
      sp_split_tokens listedToken.price saleState.platform_fee_percent 100)]

/-! ### Inversion lemmas: what a successful call tells us -/

theorem mint_ok {s : Storage} {sender amount : Nat} {md : String}
    {s' : Storage} {effs : List (Nat × Nat)}
    (h : mint s sender amount md = .ok (s', effs)) :
    s.paused = false ∧ amount = s.mint_price ∧
    s' = { s with
            tokens := fun k =>
              if k = s.next_id then
                some { metadata := md, author := sender, owner := sender,
                       price := 0, for_sale := false }
              else s.tokens k,
            next_id := s.next_id + 1,
            collected_fees := s.collected_fees + amount } ∧ effs = [] := by
  unfold mint at h
  split at h
  next hp => exact Except.noConfusion h
  next hp =>
    split at h
    next ha =>
      injection h with h1
      injection h1 with h2 h3
      exact ⟨by simpa using hp, ha, h2.symm, h3.symm⟩
    next ha => exact Except.noConfusion h

theorem list_for_sale_ok {s : Storage} {sender amount token_id price : Nat}
    {s' : Storage} {effs : List (Nat × Nat)}
    (h : list_for_sale s sender amount token_id price = .ok (s', effs)) :
    s.paused = false ∧ ∃ token, s.tokens token_id = some token ∧
      token.owner = sender ∧ token.for_sale = false ∧ 0 < price ∧
      s' = { s with
              tokens := fun k =>
                if k = token_id then
                  some { token with price := price, for_sale := true }
                else s.tokens k } ∧ effs = [] := by
  unfold list_for_sale at h
  split at h
  next hp => exact Except.noConfusion h
  next hp =>
    split at h
    next ht => exact Except.noConfusion h
    next token ht =>
      split at h
      next => exact Except.noConfusion h
      next hown =>
        split at h
        next => exact Except.noConfusion h
        next hfs =>
          split at h
          next hpr =>
            injection h with h1
            injection h1 with h2 h3
            exact ⟨by simpa using hp, token, ht, by simpa using hown,
                   by simpa using hfs, hpr, h2.symm, h3.symm⟩
          next => exact Except.noConfusion h

theorem cancel_sale_ok {s : Storage} {sender amount token_id : Nat}
    {s' : Storage} {effs : List (Nat × Nat)}
    (h : cancel_sale s sender amount token_id = .ok (s', effs)) :
    ∃ token, s.tokens token_id = some token ∧
      token.owner = sender ∧ token.for_sale = true ∧
      s' = { s with
              tokens := fun k =>
                if k = token_id then
                  some { token with for_sale := false, price := 0 }
                else s.tokens k } ∧ effs = [] := by
  unfold cancel_sale at h
  split at h
  next ht => exact Except.noConfusion h
  next token ht =>
    split at h
    next => exact Except.noConfusion h
    next hown =>
      split at h
      next hfs =>
        injection h with h1
        injection h1 with h2 h3
        exact ⟨token, ht, by simpa using hown, hfs, h2.symm, h3.symm⟩
      next => exact Except.noConfusion h

theorem buy_ok {s : Storage} {sender amount token_id : Nat}
    {s' : Storage} {effs : List (Nat × Nat)}
    (h : buy s sender amount token_id = .ok (s', effs)) :
    s.paused = false ∧ ∃ token, s.tokens token_id = some token ∧
      token.for_sale = true ∧ sender ≠ token.owner ∧ amount = token.price ∧
      s' = { s with
              collected_fees := s.collected_fees +
                sp_split_tokens token.price s.platform_fee_percent 100,
              tokens := fun k =>
                if k = token_id then
                  some { token with owner := sender, for_sale := false, price := 0 }
                else s.tokens k } ∧
      effs = [(token.author, sp_split_tokens token.price s.royalty_percent 100),
              (token.owner, token.price -
                 sp_split_tokens token.price s.royalty_percent 100 -
                 sp_split_tokens token.price s.platform_fee_percent 100)] := by
  unfold buy at h
  split at h
  next hp => exact Except.noConfusion h
  next hp =>
    split at h
    next ht => exact Except.noConfusion h
    next token ht =>
      split at h
      next hfs =>
        split at h
        next => exact Except.noConfusion h
        next hown =>
          split at h
          next ha =>
            injection h with h1
            injection h1 with h2 h3
            exact ⟨by simpa using hp, token, ht, hfs, hown, ha, h2.symm, h3.symm⟩
          next => exact Except.noConfusion h
      next => exact Except.noConfusion h

theorem transfer_ok {s : Storage} {sender amount token_id new_owner : Nat}
    {s' : Storage} {effs : List (Nat × Nat)}
    (h : transfer s sender amount token_id new_owner = .ok (s', effs)) :
    amount = 0 ∧ ∃ token, s.tokens token_id = some token ∧
      token.owner = sender ∧ new_owner ≠ sender ∧ token.for_sale = false ∧
      s' = { s with
              tokens := fun k =>
                if k = token_id then some { token with owner := new_owner }
                else s.tokens k } ∧ effs = [] := by
  unfold transfer at h
  split at h
  next ht => exact Except.noConfusion h
  next token ht =>
    split at h
    next => exact Except.noConfusion h
    next hz =>
      split at h
      next => exact Except.noConfusion h
      next hown =>
        split at h
        next => exact Except.noConfusion h
        next hne =>
          split at h
          next => exact Except.noConfusion h
          next hfs =>
            injection h with h1
            injection h1 with h2 h3
            exact ⟨by simpa using hz, token, ht, by simpa using hown, hne,
                   by simpa using hfs, h2.symm, h3.symm⟩

theorem update_author_address_ok {s : Storage} {sender amount token_id new_author : Nat}
    {s' : Storage} {effs : List (Nat × Nat)}
    (h : update_author_address s sender amount token_id new_author = .ok (s', effs)) :
    ∃ token, s.tokens token_id = some token ∧
      token.author = sender ∧ new_author ≠ sender ∧
      s' = { s with
              tokens := fun k =>
                if k = token_id then some { token with author := new_author }
                else s.tokens k } ∧ effs = [] := by
  unfold update_author_address at h
  split at h
  next ht => exact Except.noConfusion h
  next token ht =>
    split at h
    next => exact Except.noConfusion h
    next hauth =>
      split at h
      next => exact Except.noConfusion h
      next hne =>
        injection h with h1
        injection h1 with h2 h3
        exact ⟨token, ht, by simpa using hauth, hne, h2.symm, h3.symm⟩

theorem withdraw_fees_ok {s : Storage} {sender amount : Nat}
    {s' : Storage} {effs : List (Nat × Nat)}
    (h : withdraw_fees s sender amount = .ok (s', effs)) :
    sender = s.admin ∧ 0 < s.collected_fees ∧
    s' = { s with collected_fees := 0 } ∧
    effs = [(s.admin, s.collected_fees)] := by
  unfold withdraw_fees at h
  split at h
  next => exact Except.noConfusion h
  next hs =>
    split at h
    next hf =>
      injection h with h1
      injection h1 with h2 h3
      exact ⟨by simpa using hs, hf, h2.symm, h3.symm⟩
    next => exact Except.noConfusion h

theorem set_pause_ok {s : Storage} {sender amount : Nat} {flag : Bool}
    {s' : Storage} {effs : List (Nat × Nat)}
    (h : set_pause s sender amount flag = .ok (s', effs)) :
    sender = s.admin ∧ s' = { s with paused := flag } ∧ effs = [] := by
  unfold set_pause at h
  split at h
  next => exact Except.noConfusion h
  next hs =>
    injection h with h1
    injection h1 with h2 h3
    exact ⟨by simpa using hs, h2.symm, h3.symm⟩

theorem update_mint_price_ok {s : Storage} {sender amount new_price : Nat}
    {s' : Storage} {effs : List (Nat × Nat)}
    (h : update_mint_price s sender amount new_price = .ok (s', effs)) :
    sender = s.admin ∧ s' = { s with mint_price := new_price } ∧ effs = [] := by
  unfold update_mint_price at h
  split at h
  next => exact Except.noConfusion h
  next hs =>
    injection h with h1
    injection h1 with h2 h3
    exact ⟨by simpa using hs, h2.symm, h3.symm⟩

theorem transfer_admin_ok {s : Storage} {sender amount new_admin : Nat}
    {s' : Storage} {effs : List (Nat × Nat)}
    (h : transfer_admin s sender amount new_admin = .ok (s', effs)) :
    sender = s.admin ∧ new_admin ≠ s.admin ∧
    s' = { s with admin := new_admin } ∧ effs = [] := by
  unfold transfer_admin at h
  split at h
  next => exact Except.noConfusion h
  next hs =>
    split at h
    next => exact Except.noConfusion h
    next hne =>
      injection h with h1
      injection h1 with h2 h3
      exact ⟨by simpa using hs, hne, h2.symm, h3.symm⟩

/-! ### Success characterisations -/

theorem opOk_iff {r : Result} : opOk r = true ↔ ∃ p, r = .ok p := by
  cases r <;> simp [opOk]

theorem cancel_sale_succeeds_iff (s : Storage) (sender amount token_id : Nat) :
    opOk (cancel_sale s sender amount token_id) = true ↔
      ∃ token, s.tokens token_id = some token ∧
        token.owner = sender ∧ token.for_sale = true := by
  constructor
  · intro h
    obtain ⟨⟨s', effs⟩, hr⟩ := opOk_iff.mp h
    obtain ⟨token, ht, hown, hfs, -, -⟩ := cancel_sale_ok (by simpa only [exec] using hr)
    exact ⟨token, ht, hown, hfs⟩
  · rintro ⟨token, ht, hown, hfs⟩
    simp [cancel_sale, opOk, ht, hown, hfs]

theorem transfer_succeeds_iff (s : Storage) (sender amount token_id new_owner : Nat) :
    opOk (transfer s sender amount token_id new_owner) = true ↔
      amount = 0 ∧ ∃ token, s.tokens token_id = some token ∧
        token.owner = sender ∧ new_owner ≠ sender ∧ token.for_sale = false := by
  constructor
  · intro h
    obtain ⟨⟨s', effs⟩, hr⟩ := opOk_iff.mp h
    obtain ⟨hz, token, ht, hown, hne, hfs, -, -⟩ := transfer_ok (by simpa only [exec] using hr)
    exact ⟨hz, token, ht, hown, hne, hfs⟩
  · rintro ⟨hz, token, ht, hown, hne, hfs⟩
    simp [transfer, opOk, ht, hz, hown, hne, hfs]

theorem update_author_address_succeeds_iff (s : Storage)
    (sender amount token_id new_author : Nat) :
    opOk (update_author_address s sender amount token_id new_author) = true ↔
      ∃ token, s.tokens token_id = some token ∧
        token.author = sender ∧ new_author ≠ sender := by
  constructor
  · intro h
    obtain ⟨⟨s', effs⟩, hr⟩ := opOk_iff.mp h
    obtain ⟨token, ht, hauth, hne, -, -⟩ := update_author_address_ok (by simpa only [exec] using hr)
    exact ⟨token, ht, hauth, hne⟩
  · rintro ⟨token, ht, hauth, hne⟩
    simp [update_author_address, opOk, ht, hauth, hne]

theorem withdraw_fees_succeeds_iff (s : Storage) (sender amount : Nat) :
    opOk (withdraw_fees s sender amount) = true ↔
      sender = s.admin ∧ 0 < s.collected_fees := by
  constructor
  · intro h
    obtain ⟨⟨s', effs⟩, hr⟩ := opOk_iff.mp h
    obtain ⟨hs, hf, -, -⟩ := withdraw_fees_ok (by simpa only [exec] using hr)
    exact ⟨hs, hf⟩
  · rintro ⟨hs, hf⟩
    simp [withdraw_fees, opOk, hs, hf]

theorem set_pause_succeeds_iff (s : Storage) (sender amount : Nat) (flag : Bool) :
    opOk (set_pause s sender amount flag) = true ↔ sender = s.admin := by
  constructor
  · intro h
    obtain ⟨⟨s', effs⟩, hr⟩ := opOk_iff.mp h
    exact (set_pause_ok hr).1
  · intro hs
    simp [set_pause, opOk, hs]

theorem update_mint_price_succeeds_iff (s : Storage) (sender amount new_price : Nat) :
    opOk (update_mint_price s sender amount new_price) = true ↔ sender = s.admin := by
  constructor
  · intro h
    obtain ⟨⟨s', effs⟩, hr⟩ := opOk_iff.mp h
    exact (update_mint_price_ok hr).1
  · intro hs
    simp [update_mint_price, opOk, hs]

theorem transfer_admin_succeeds_iff (s : Storage) (sender amount new_admin : Nat) :
    opOk (transfer_admin s sender amount new_admin) = true ↔
      sender = s.admin ∧ new_admin ≠ s.admin := by
  constructor
  · intro h
    obtain ⟨⟨s', effs⟩, hr⟩ := opOk_iff.mp h
    obtain ⟨hs, hne, -, -⟩ := transfer_admin_ok (by simpa only [exec] using hr)
    exact ⟨hs, hne⟩
  · rintro ⟨hs, hne⟩
    simp [transfer_admin, opOk, hs, hne]

/-! ### Reachability invariants -/

theorem keysInv_init (a m r f : Nat) : KeysInv (initStorage a m r f) := by
  intro k
  simp [initStorage]

theorem keys_update {f : Nat → Option Token} {n token_id : Nat} {token t' : Token}
    (ih : ∀ k, (f k).isSome ↔ k < n) (ht : f token_id = some token) :
    ∀ k, ((fun j => if j = token_id then some t' else f j) k).isSome ↔ k < n := by
  intro k
  by_cases hk : k = token_id
  · subst hk
    have hsome : (f k).isSome := by rw [ht]; rfl
    simp [(ih k).mp hsome]
  · simpa [hk] using ih k

theorem keysInv_step (c : Call) (sender amount : Nat) (s : Storage)
    (ih : KeysInv s) : KeysInv (step c sender amount s) := by
  rcases hr : exec c sender amount s with e | ⟨s', effs⟩
  · simpa only [step, hr] using ih
  · simp only [step, hr]
    cases c with
    | mint md =>
      obtain ⟨hp, ha, hs', -⟩ := mint_ok (by simpa only [exec] using hr)
      subst hs'
      intro k
      by_cases hk : k = s.next_id
      · simp [hk]
      · simp only [if_neg hk]
        have hik := ih k
        constructor
        · intro hs
          have := hik.mp hs
          omega
        · intro hlt
          refine hik.mpr ?_
          omega
    | list_for_sale token_id price =>
      obtain ⟨hp, token, ht, hown, hfs, hpr, hs', -⟩ := list_for_sale_ok (by simpa only [exec] using hr)
      subst hs'
      exact keys_update ih ht
    | cancel_sale token_id =>
      obtain ⟨token, ht, hown, hfs, hs', -⟩ := cancel_sale_ok (by simpa only [exec] using hr)
      subst hs'
      exact keys_update ih ht
    | buy token_id =>
      obtain ⟨hp, token, ht, hfs, hown, ha, hs', -⟩ := buy_ok (by simpa only [exec] using hr)
      subst hs'
      exact keys_update ih ht
    | transfer token_id new_owner =>
      obtain ⟨hz, token, ht, hown, hne, hfs, hs', -⟩ := transfer_ok (by simpa only [exec] using hr)
      subst hs'
      exact keys_update ih ht
    | update_author_address token_id new_author =>
      obtain ⟨token, ht, hauth, hne, hs', -⟩ := update_author_address_ok (by simpa only [exec] using hr)
      subst hs'
      exact keys_update ih ht
    | withdraw_fees =>
      obtain ⟨-, -, hs', -⟩ := withdraw_fees_ok (by simpa only [exec] using hr)
      subst hs'
      exact ih
    | set_pause flag =>
      obtain ⟨-, hs', -⟩ := set_pause_ok (by simpa only [exec] using hr)
      subst hs'
      exact ih
    | update_mint_price np =>
      obtain ⟨-, hs', -⟩ := update_mint_price_ok (by simpa only [exec] using hr)
      subst hs'
      exact ih
    | transfer_admin na =>
      obtain ⟨-, -, hs', -⟩ := transfer_admin_ok (by simpa only [exec] using hr)
      subst hs'
      exact ih

theorem reachable_keysInv {s : Storage} (h : Reachable s) : KeysInv s := by
  induction h with
  | init a m r f hlt => exact keysInv_init a m r f
  | step s c sender amount hr ih => exact keysInv_step c sender amount s ih

theorem next_id_monotone (c : Call) (sender amount : Nat) (s : Storage) :
    s.next_id ≤ (step c sender amount s).next_id := by
  rcases hr : exec c sender amount s with e | ⟨s', effs⟩
  · simp [step, hr]
  · simp only [step, hr]
    cases c with
    | mint md =>
      obtain ⟨-, -, hs', -⟩ := mint_ok (by simpa only [exec] using hr)
      subst hs'
      exact Nat.le_succ _
    | list_for_sale token_id price =>
      obtain ⟨-, token, -, -, -, -, hs', -⟩ := list_for_sale_ok (by simpa only [exec] using hr)
      subst hs'
      exact le_refl _
    | cancel_sale token_id =>
      obtain ⟨token, -, -, -, hs', -⟩ := cancel_sale_ok (by simpa only [exec] using hr)
      subst hs'
      exact le_refl _
    | buy token_id =>
      obtain ⟨-, token, -, -, -, -, hs', -⟩ := buy_ok (by simpa only [exec] using hr)
      subst hs'
      exact le_refl _
    | transfer token_id new_owner =>
      obtain ⟨-, token, -, -, -, -, hs', -⟩ := transfer_ok (by simpa only [exec] using hr)
      subst hs'
      exact le_refl _
    | update_author_address token_id new_author =>
      obtain ⟨token, -, -, -, hs', -⟩ := update_author_address_ok (by simpa only [exec] using hr)
      subst hs'
      exact le_refl _
    | withdraw_fees =>
      obtain ⟨-, -, hs', -⟩ := withdraw_fees_ok (by simpa only [exec] using hr)
      subst hs'
      exact le_refl _
    | set_pause flag =>
      obtain ⟨-, hs', -⟩ := set_pause_ok (by simpa only [exec] using hr)
      subst hs'
      exact le_refl _
    | update_mint_price np =>
      obtain ⟨-, hs', -⟩ := update_mint_price_ok (by simpa only [exec] using hr)
      subst hs'
      exact le_refl _
    | transfer_admin na =>
      obtain ⟨-, -, hs', -⟩ := transfer_admin_ok (by simpa only [exec] using hr)
      subst hs'
      exact le_refl _

theorem saleInv_init (a m r f : Nat) : SaleInv (initStorage a m r f) := by
  intro k t h
  simp [initStorage] at h

theorem saleInv_update {f : Nat → Option Token} {token_id : Nat} {t' : Token}
    (ih : ∀ k t, f k = some t → TokenPriceOk t) (h' : TokenPriceOk t') :
    ∀ k t, (fun j => if j = token_id then some t' else f j) k = some t →
      TokenPriceOk t := by
  intro k t hk
  by_cases he : k = token_id
  · subst he
    have ht' : t' = t := by simpa using hk
    exact ht' ▸ h'
  · exact ih k t (by simpa [he] using hk)

theorem saleInv_step (c : Call) (sender amount : Nat) (s : Storage)
    (ih : SaleInv s) : SaleInv (step c sender amount s) := by
  rcases hr : exec c sender amount s with e | ⟨s', effs⟩
  · simpa only [step, hr] using ih
  · simp only [step, hr]
    cases c with
    | mint md =>
      obtain ⟨-, -, hs', -⟩ := mint_ok (by simpa only [exec] using hr)
      subst hs'
      exact saleInv_update ih ⟨fun h => Bool.noConfusion h, fun _ => rfl⟩
    | list_for_sale token_id price =>
      obtain ⟨-, token, ht, -, -, hpr, hs', -⟩ := list_for_sale_ok (by simpa only [exec] using hr)
      subst hs'
      exact saleInv_update ih ⟨fun _ => hpr, fun h => Bool.noConfusion h⟩
    | cancel_sale token_id =>
      obtain ⟨token, ht, -, -, hs', -⟩ := cancel_sale_ok (by simpa only [exec] using hr)
      subst hs'
      exact saleInv_update ih ⟨fun h => Bool.noConfusion h, fun _ => rfl⟩
    | buy token_id =>
      obtain ⟨-, token, ht, -, -, -, hs', -⟩ := buy_ok (by simpa only [exec] using hr)
      subst hs'
      exact saleInv_update ih ⟨fun h => Bool.noConfusion h, fun _ => rfl⟩
    | transfer token_id new_owner =>
      obtain ⟨-, token, ht, -, -, -, hs', -⟩ := transfer_ok (by simpa only [exec] using hr)
      subst hs'
      have htok := ih _ _ ht
      exact saleInv_update ih ⟨htok.1, htok.2⟩
    | update_author_address token_id new_author =>
      obtain ⟨token, ht, -, -, hs', -⟩ := update_author_address_ok (by simpa only [exec] using hr)
      subst hs'
      have htok := ih _ _ ht
      exact saleInv_update ih ⟨htok.1, htok.2⟩
    | withdraw_fees =>
      obtain ⟨-, -, hs', -⟩ := withdraw_fees_ok (by simpa only [exec] using hr)
      subst hs'
      exact ih
    | set_pause flag =>
      obtain ⟨-, hs', -⟩ := set_pause_ok (by simpa only [exec] using hr)
      subst hs'
      exact ih
    | update_mint_price np =>
      obtain ⟨-, hs', -⟩ := update_mint_price_ok (by simpa only [exec] using hr)
      subst hs'
      exact ih
    | transfer_admin na =>
      obtain ⟨-, -, hs', -⟩ := transfer_admin_ok (by simpa only [exec] using hr)
      subst hs'
      exact ih

theorem reachable_saleInv {s : Storage} (h : Reachable s) : SaleInv s := by
  induction h with
  | init a m r f hlt => exact saleInv_init a m r f
  | step s c sender amount hr ih => exact saleInv_step c sender amount s ih

/-! ### Fee-split arithmetic -/

theorem split_parts_le {p r f : Nat} (h : r + f < 100) :
    p * r / 100 + p * f / 100 ≤ p := by
  have hr : p * r / 100 * 100 ≤ p * r := Nat.div_mul_le_self _ _
  have hf : p * f / 100 * 100 ≤ p * f := Nat.div_mul_le_self _ _
  have hsum : (p * r / 100 + p * f / 100) * 100 ≤ p * 100 := by
    calc (p * r / 100 + p * f / 100) * 100
        = p * r / 100 * 100 + p * f / 100 * 100 := by ring
      _ ≤ p * r + p * f := Nat.add_le_add hr hf
      _ = p * (r + f) := by ring
      _ ≤ p * 100 := Nat.mul_le_mul_left p (Nat.le_of_lt h)
  exact Nat.le_of_mul_le_mul_right hsum (by norm_num)

theorem not_admin_all_fail (s : Storage) (c amount : Nat) (h : c ≠ s.admin) :
    withdraw_fees s c amount = .error "Not admin" ∧
    (∀ flag, set_pause s c amount flag = .error "Not admin") ∧
    (∀ np, update_mint_price s c amount np = .error "Not admin") ∧
    (∀ na, transfer_admin s c amount na = .error "Not admin") := by
  refine ⟨?_, ?_, ?_, ?_⟩ <;> intros <;>
    simp [withdraw_fees, set_pause, update_mint_price, transfer_admin, h]

/-! ### The claims -/

/-- C1: for every successful `buy` at listed price `p` with configured
`royalty_percent` `r` and `platform_fee_percent` `f` (construction enforces
`r + f < 100`), the payments are `royalty = p * r / 100` to the token's
author and `seller_amount = p - royalty - platform_fee` to the current
owner, `platform_fee = p * f / 100` is added to `collected_fees`, and
`royalty + platform_fee + seller_amount = p` exactly for every `p`;
when both parts floor to zero the seller receives the full `p`. -/
theorem buy_fee_split (s : Storage) (sender amount token_id : Nat)
    (s' : Storage) (effs : List (Nat × Nat)) (token : Token)
    (hpercent : s.royalty_percent + s.platform_fee_percent < 100)
    (ht : s.tokens token_id = some token)
    (h : buy s sender amount token_id = .ok (s', effs)) :
    effs = [(token.author, sp_split_tokens token.price s.royalty_percent 100),
            (token.owner,
              token.price - sp_split_tokens token.price s.royalty_percent 100 -
                sp_split_tokens token.price s.platform_fee_percent 100)] ∧
    s'.collected_fees = s.collected_fees +
      sp_split_tokens token.price s.platform_fee_percent 100 ∧
    (∀ p : Nat,
      sp_split_tokens p s.royalty_percent 100 +
        sp_split_tokens p s.platform_fee_percent 100 +
        (p - sp_split_tokens p s.royalty_percent 100 -
          sp_split_tokens p s.platform_fee_percent 100) = p) ∧
    (sp_split_tokens token.price s.royalty_percent 100 = 0 →
      sp_split_tokens token.price s.platform_fee_percent 100 = 0 →
      token.price - sp_split_tokens token.price s.royalty_percent 100 -
        sp_split_tokens token.price s.platform_fee_percent 100 = token.price) := by
  obtain ⟨hp, token', ht', hfs, hown, ha, hs', heffs⟩ := buy_ok h
  have he : token' = token := Option.some.inj (ht'.symm.trans ht)
  subst he
  subst hs'
  refine ⟨heffs, rfl, ?_, ?_⟩
  · intro p
    have hle := split_parts_le (p := p) hpercent
    simp only [sp_split_tokens]
    revert hle
    generalize p * s.royalty_percent / 100 = a
    generalize p * s.platform_fee_percent / 100 = b
    intro hle
    omega
  · intro h1 h2
    rw [h1, h2]
    simp

/-- C1 witness: the three-way split identity, instantiated through the
concrete successful purchase `buy saleState 2 100 0` at `p = 7`. -/
theorem buy_fee_split_witness :
    sp_split_tokens 7 saleState.royalty_percent 100 +
      sp_split_tokens 7 saleState.platform_fee_percent 100 +
      (7 - sp_split_tokens 7 saleState.royalty_percent 100 -
        sp_split_tokens 7 saleState.platform_fee_percent 100) = 7 :=
  (buy_fee_split saleState 2 100 0 buyResultState buyResultEffs listedToken
    (by decide) rfl rfl).2.2.1 7

/-- C2 counterexample: in a paused state where every other precondition of
`list_for_sale` holds (token exists, caller is the owner, token not yet
listed, price positive), the call still fails with "Contract is paused" —
contrary to the claim that pausing does not block `list_for_sale`. -/
theorem pause_blocks_list_for_sale_cex :
    pausedState.paused = true ∧
    pausedState.tokens 0 = some sampleToken ∧
    sampleToken.owner = 1 ∧ sampleToken.for_sale = false ∧ (0 : Nat) < 5 ∧
    list_for_sale pausedState 1 0 0 5 = .error "Contract is paused" :=
  ⟨rfl, rfl, rfl, rfl, by decide, rfl⟩

/-- C2 (amended): while paused, `mint`, `buy` AND `list_for_sale` all fail
with "Contract is paused"; `cancel_sale`, `transfer` and the admin
operations succeed exactly when their own preconditions hold (the pause
flag plays no role in them); after the admin unpauses, `mint` succeeds
again whenever the payment equals `mint_price`. -/
theorem pause_effects (s : Storage) (h : s.paused = true) :
    (∀ sender amount metadata,
      mint s sender amount metadata = .error "Contract is paused") ∧
    (∀ sender amount token_id,
      buy s sender amount token_id = .error "Contract is paused") ∧
    (∀ sender amount token_id price,
      list_for_sale s sender amount token_id price = .error "Contract is paused") ∧
    (∀ sender amount token_id,
      opOk (cancel_sale s sender amount token_id) = true ↔
        ∃ token, s.tokens token_id = some token ∧
          token.owner = sender ∧ token.for_sale = true) ∧
    (∀ sender amount token_id new_owner,
      opOk (transfer s sender amount token_id new_owner) = true ↔
        amount = 0 ∧ ∃ token, s.tokens token_id = some token ∧
          token.owner = sender ∧ new_owner ≠ sender ∧ token.for_sale = false) ∧
    (∀ sender amount, opOk (withdraw_fees s sender amount) = true ↔
      sender = s.admin ∧ 0 < s.collected_fees) ∧
    (∀ sender amount flag,
      opOk (set_pause s sender amount flag) = true ↔ sender = s.admin) ∧
    (∀ sender amount new_price,
      opOk (update_mint_price s sender amount new_price) = true ↔ sender = s.admin) ∧
    (∀ sender amount new_admin,
      opOk (transfer_admin s sender amount new_admin) = true ↔
        sender = s.admin ∧ new_admin ≠ s.admin) ∧
    (∀ amount, (step (.set_pause false) s.admin amount s).paused = false) ∧
    (∀ s2 : Storage, s2.paused = false →
      ∀ sender metadata, opOk (mint s2 sender s2.mint_price metadata) = true) := by
  refine ⟨?_, ?_, ?_, ?_, ?_, ?_, ?_, ?_, ?_, ?_, ?_⟩
  · intro sender amount metadata
    simp [mint, h]
  · intro sender amount token_id
    simp [buy, h]
  · intro sender amount token_id price
    simp [list_for_sale, h]
  · intro sender amount token_id
    exact cancel_sale_succeeds_iff s sender amount token_id
  · intro sender amount token_id new_owner
    exact transfer_succeeds_iff s sender amount token_id new_owner
  · intro sender amount
    exact withdraw_fees_succeeds_iff s sender amount
  · intro sender amount flag
    exact set_pause_succeeds_iff s sender amount flag
  · intro sender amount new_price
    exact update_mint_price_succeeds_iff s sender amount new_price
  · intro sender amount new_admin
    exact transfer_admin_succeeds_iff s sender amount new_admin
  · intro amount
    simp [step, exec, set_pause]
  · intro s2 h2 sender metadata
    simp [mint, opOk, h2]

/-- C2 witness: in the concrete paused state, `mint` is blocked while
`cancel_sale` by the owner succeeds. -/
theorem pause_effects_witness :
    mint pausedSaleState 1 1 "x" = .error "Contract is paused" ∧
    opOk (cancel_sale pausedSaleState 1 0 0) = true :=
  ⟨(pause_effects pausedSaleState rfl).1 1 1 "x",
   ((pause_effects pausedSaleState rfl).2.2.2.1 1 0 0).mpr ⟨listedToken, rfl, rfl, rfl⟩⟩

/-- C3: every operation that fails with an error leaves the ledger state
exactly as it was: the post-call state of an aborted call is the pre-call
state. -/
theorem error_leaves_state_unchanged (c : Call) (sender amount : Nat)
    (s : Storage) (e : String) (h : exec c sender amount s = .error e) :
    step c sender amount s = s := by
  simp [step, h]

/-- C3 witness: a concrete failing `mint` (contract paused) leaves the
state untouched. -/
theorem error_leaves_state_unchanged_witness :
    exec (Call.mint "x") 1 1 pausedState = .error "Contract is paused" ∧
    step (Call.mint "x") 1 1 pausedState = pausedState :=
  ⟨rfl, error_leaves_state_unchanged (Call.mint "x") 1 1 pausedState
    "Contract is paused" rfl⟩

/-- C4: in every reachable state the token key set is exactly
`{0, …, next_id - 1}` (keys are sequential, never reused, never removed,
and `next_id` equals the number of tokens), and no operation ever
decreases `next_id`. -/
theorem token_keys_exact (s : Storage) (h : Reachable s) :
    (∀ k, (s.tokens k).isSome ↔ k < s.next_id) ∧
    (∀ c sender amount, s.next_id ≤ (step c sender amount s).next_id) :=
  ⟨reachable_keysInv h, fun c sender amount => next_id_monotone c sender amount s⟩

/-- C4 witness: instantiated at the freshly constructed marketplace and
key 3. -/
theorem token_keys_exact_witness :
    ((initStorage 0 1 5 2).tokens 3).isSome ↔ 3 < (initStorage 0 1 5 2).next_id :=
  (token_keys_exact (initStorage 0 1 5 2) (Reachable.init 0 1 5 2 (by decide))).1 3

/-- C5: in every reachable state every token with `for_sale = true` has a
positive price; listing at price 0 never succeeds; and a successful
`cancel_sale` or `buy` resets the token to `for_sale = false, price = 0`. -/
theorem for_sale_implies_positive_price (s : Storage) (h : Reachable s) :
    (∀ k t, s.tokens k = some t → t.for_sale = true → 0 < t.price) ∧
    (∀ sender amount token_id,
      opOk (list_for_sale s sender amount token_id 0) = false) ∧
    (∀ sender amount token_id s' effs,
      cancel_sale s sender amount token_id = .ok (s', effs) →
      ∃ t, s'.tokens token_id = some t ∧ t.for_sale = false ∧ t.price = 0) ∧
    (∀ sender amount token_id s' effs,
      buy s sender amount token_id = .ok (s', effs) →
      ∃ t, s'.tokens token_id = some t ∧ t.for_sale = false ∧ t.price = 0) := by
  refine ⟨fun k t ht => (reachable_saleInv h k t ht).1, ?_, ?_, ?_⟩
  · intro sender amount token_id
    cases hres : list_for_sale s sender amount token_id 0 with
    | error e => rfl
    | ok p =>
      obtain ⟨s', effs⟩ := p
      obtain ⟨-, token, -, -, -, hpr, -, -⟩ := list_for_sale_ok hres
      exact absurd hpr (by norm_num)
  · intro sender amount token_id s' effs hres
    obtain ⟨token, ht, -, -, hs', -⟩ := cancel_sale_ok hres
    subst hs'
    exact ⟨{ token with for_sale := false, price := 0 }, by simp, rfl, rfl⟩
  · intro sender amount token_id s' effs hres
    obtain ⟨-, token, ht, -, -, -, hs', -⟩ := buy_ok hres
    subst hs'
    exact ⟨{ token with owner := sender, for_sale := false, price := 0 },
           by simp, rfl, rfl⟩

/-- C5 witness: at a freshly constructed marketplace, listing token 0 at
price 0 does not succeed. -/
theorem for_sale_implies_positive_price_witness :
    opOk (list_for_sale (initStorage 0 1 5 2) 1 0 0 0) = false :=
  (for_sale_implies_positive_price (initStorage 0 1 5 2)
    (Reachable.init 0 1 5 2 (by decide))).2.1 1 0 0

/-- C6: a successful `mint` by `sender` paying exactly `mint_price`
inserts `Token{metadata, author = sender, owner = sender, price = 0,
for_sale = false}` at key `next_id`, increments `next_id` by exactly 1 and
adds the full payment to `collected_fees`; any payment different from
`mint_price` makes `mint` fail. -/
theorem mint_spec (s : Storage) (sender amount : Nat) (metadata : String) :
    (s.paused = false → amount = s.mint_price →
      mint s sender amount metadata =
        .ok ({ s with
                tokens := fun k =>
                  if k = s.next_id then
                    some { metadata := metadata, author := sender, owner := sender,
                           price := 0, for_sale := false }
                  else s.tokens k,
                next_id := s.next_id + 1,
                collected_fees := s.collected_fees + amount }, [])) ∧
    (amount ≠ s.mint_price → opOk (mint s sender amount metadata) = false) := by
  constructor
  · intro hp ha
    simp [mint, hp, ha]
  · intro hne
    by_cases hp : s.paused <;> simp [mint, opOk, hp, hne]

/-- C6 witness: a concrete successful mint on a fresh marketplace. -/
theorem mint_spec_witness :
    mint (initStorage 0 1 5 2) 1 1 "nft" =
      .ok ({ initStorage 0 1 5 2 with
              tokens := fun k =>
                if k = (initStorage 0 1 5 2).next_id then
                  some { metadata := "nft", author := 1, owner := 1,
                         price := 0, for_sale := false }
                else (initStorage 0 1 5 2).tokens k,
              next_id := (initStorage 0 1 5 2).next_id + 1,
              collected_fees := (initStorage 0 1 5 2).collected_fees + 1 }, []) :=
  (mint_spec (initStorage 0 1 5 2) 1 1 "nft").1 rfl rfl

/-- C7: `buy` succeeds iff the contract is not paused, the token exists
and is for sale, the caller is not the owner, and the payment equals the
listed price; on success the token's owner becomes the caller,
`for_sale` becomes false and `price` becomes 0, with metadata and author
unchanged. -/
theorem buy_spec (s : Storage) (sender amount token_id : Nat) :
    (opOk (buy s sender amount token_id) = true ↔
      s.paused = false ∧ ∃ token, s.tokens token_id = some token ∧
        token.for_sale = true ∧ sender ≠ token.owner ∧ amount = token.price) ∧
    (∀ s' effs token, buy s sender amount token_id = .ok (s', effs) →
      s.tokens token_id = some token →
      s'.tokens token_id =
        some { token with owner := sender, for_sale := false, price := 0 }) := by
  constructor
  · constructor
    · intro h
      obtain ⟨⟨s', effs⟩, hr⟩ := opOk_iff.mp h
      obtain ⟨hp, token, ht, hfs, hown, ha, -, -⟩ := buy_ok hr
      exact ⟨hp, token, ht, hfs, hown, ha⟩
    · rintro ⟨hp, token, ht, hfs, hown, ha⟩
      simp [buy, opOk, hp, ht, hfs, hown, ha]
  · intro s' effs token hr ht
    obtain ⟨-, token', ht', -, -, -, hs', -⟩ := buy_ok hr
    have he : token' = token := Option.some.inj (ht'.symm.trans ht)
    subst he
    subst hs'
    simp

/-- C7 witness: the concrete purchase `buy saleState 2 100 0` succeeds. -/
theorem buy_spec_witness : opOk (buy saleState 2 100 0) = true :=
  (buy_spec saleState 2 100 0).1.mpr ⟨rfl, listedToken, rfl, rfl, by decide, rfl⟩

/-- C8: every non-admin caller is rejected with "Not admin" by
`withdraw_fees`, `set_pause`, `update_mint_price` and `transfer_admin`,
with the state unchanged; a successful `transfer_admin` to a different
address replaces `admin`, after which the previous admin fails all four
operations (and, since the first group is universally quantified over
states with `admin ≠ caller`, this persists in every later state until
the admin is reassigned back). -/
theorem admin_ops_reject_non_admin (s : Storage) (c amount : Nat) (h : c ≠ s.admin) :
    (withdraw_fees s c amount = .error "Not admin" ∧
      step Call.withdraw_fees c amount s = s) ∧
    (∀ flag, set_pause s c amount flag = .error "Not admin" ∧
      step (Call.set_pause flag) c amount s = s) ∧
    (∀ new_price, update_mint_price s c amount new_price = .error "Not admin" ∧
      step (Call.update_mint_price new_price) c amount s = s) ∧
    (∀ new_admin, transfer_admin s c amount new_admin = .error "Not admin" ∧
      step (Call.transfer_admin new_admin) c amount s = s) ∧
    (∀ new_admin amount', new_admin ≠ s.admin →
      transfer_admin s s.admin amount' new_admin =
        .ok ({ s with admin := new_admin }, []) ∧
      ∀ amount'' flag new_price new_admin2,
        withdraw_fees { s with admin := new_admin } s.admin amount'' =
          .error "Not admin" ∧
        set_pause { s with admin := new_admin } s.admin amount'' flag =
          .error "Not admin" ∧
        update_mint_price { s with admin := new_admin } s.admin amount'' new_price =
          .error "Not admin" ∧
        transfer_admin { s with admin := new_admin } s.admin amount'' new_admin2 =
          .error "Not admin") := by
  have hf := not_admin_all_fail s c amount h
  refine ⟨⟨hf.1, by simp [step, exec, hf.1]⟩,
          fun flag => ⟨hf.2.1 flag, by simp [step, exec, hf.2.1 flag]⟩,
          fun np => ⟨hf.2.2.1 np, by simp [step, exec, hf.2.2.1 np]⟩,
          fun na => ⟨hf.2.2.2 na, by simp [step, exec, hf.2.2.2 na]⟩, ?_⟩
  intro na amount' hne
  constructor
  · simp [transfer_admin, hne]
  · intro amount'' flag np na2
    have h2 : s.admin ≠ ({ s with admin := na } : Storage).admin :=
      fun he => hne he.symm
    have hf2 := not_admin_all_fail { s with admin := na } s.admin amount'' h2
    exact ⟨hf2.1, hf2.2.1 flag, hf2.2.2.1 np, hf2.2.2.2 na2⟩

/-- C8 witness: a concrete non-admin caller is rejected by
`withdraw_fees`. -/
theorem admin_ops_reject_non_admin_witness :
    withdraw_fees saleState 5 0 = .error "Not admin" :=
  (admin_ops_reject_non_admin saleState 5 0 (by decide)).1.1

/-- C9 counterexample: `list_for_sale` called with the nonzero attached
payment 7 succeeds, so an entrypoint whose payment constraint is listed
as 0 does NOT fail on nonzero payment. -/
theorem nonzero_payment_accepted_cex :
    (7 : Nat) ≠ 0 ∧ opOk (list_for_sale unlistedState 1 7 0 5) = true :=
  ⟨by decide, rfl⟩

/-- C9 (amended): of the entrypoints whose payment constraint is listed
as 0, none inspects the attached payment at all — `list_for_sale`,
`cancel_sale`, `update_author_address`, `withdraw_fees`, `set_pause`,
`update_mint_price` and `transfer_admin` return identical results for any
two attached amounts (only `transfer` enforces a zero payment). -/
theorem zero_payment_entrypoints_ignore_payment (s : Storage)
    (sender a1 a2 token_id price new_author new_price new_admin : Nat) (flag : Bool) :
    list_for_sale s sender a1 token_id price =
      list_for_sale s sender a2 token_id price ∧
    cancel_sale s sender a1 token_id = cancel_sale s sender a2 token_id ∧
    update_author_address s sender a1 token_id new_author =
      update_author_address s sender a2 token_id new_author ∧
    withdraw_fees s sender a1 = withdraw_fees s sender a2 ∧
    set_pause s sender a1 flag = set_pause s sender a2 flag ∧
    update_mint_price s sender a1 new_price =
      update_mint_price s sender a2 new_price ∧
    transfer_admin s sender a1 new_admin = transfer_admin s sender a2 new_admin :=
  ⟨rfl, rfl, rfl, rfl, rfl, rfl, rfl⟩

/-- C10: in every reachable state, a token that is not for sale has price
0, and hence `0 < price ↔ for_sale`. -/
theorem unlisted_price_zero (s : Storage) (h : Reachable s) :
    ∀ k t, s.tokens k = some t →
      (t.for_sale = false → t.price = 0) ∧ (0 < t.price ↔ t.for_sale = true) := by
  intro k t ht
  have htok := reachable_saleInv h k t ht
  refine ⟨htok.2, ?_, htok.1⟩
  intro hp
  cases hfs : t.for_sale with
  | false =>
    have := htok.2 hfs
    omega
  | true => rfl

/-- C10 witness: instantiated at the token freshly minted into
`mintedState`, a reachable state. -/
theorem unlisted_price_zero_witness :
    ((⟨"nft", 1, 1, 0, false⟩ : Token).for_sale = false →
      (⟨"nft", 1, 1, 0, false⟩ : Token).price = 0) ∧
    (0 < (⟨"nft", 1, 1, 0, false⟩ : Token).price ↔
      (⟨"nft", 1, 1, 0, false⟩ : Token).for_sale = true) :=
  unlisted_price_zero mintedState
    (Reachable.step (initStorage 0 1 5 2) (Call.mint "nft") 1 1
      (Reachable.init 0 1 5 2 (by decide)))
    0 ⟨"nft", 1, 1, 0, false⟩ rfl

end NFTMarketplace
